import Mathlib

/-!
Verification of the speedbar middleware (`speedbar/middleware.py`).

The Python middleware is shallowly embedded below: requests, responses,
settings and the per-request trace become Lean structures; the header
manipulation, metric collection, placeholder substitution and the
`process_request` / `process_response` entry points become executable
Lean functions translated line by line from the source.  Exceptions
raised by module code or by metric lookups are modelled with `Except`.
-/

namespace Speedbar

/-- A metric value: the middleware only ever stringifies values, so we model
numeric and string values, with `valueStr` as Python's `unicode()`/`str()`. -/
inductive Value where
  | int (n : Int)
  | str (s : String)
deriving DecidableEq, Repr

def valueStr : Value → String
  | .int n => toString n
  | .str s => s

/-- A module's summary metrics: mapping metric name -> value (insertion order). -/
abbrev MetricMap := List (String × Value)

/-- The metrics snapshot: mapping module name -> metric map (insertion order). -/
abbrev Metrics := List (String × MetricMap)

/-- A per-request module instance, characterised by the outcome of its
`get_metrics()` call; `Except.error` models the call raising. -/
structure Module where
  get_metrics : Except Unit MetricMap

structure User where
  is_staff : Bool
deriving DecidableEq

/-- A Django request: `user = none` models `not hasattr(request, 'user')`. -/
structure Request where
  method : String
  path : String
  user : Option User
deriving DecidableEq

/-- A Django response: a header mapping and the body content. -/
structure Response where
  headers : List (String × String)
  content : List Char
deriving DecidableEq

/-- The recognised configuration options; `none` models the setting being
absent, in which case `getattr(settings, name, default)` yields the default. -/
structure Settings where
  SPEEDBAR_ENABLE : Option Bool
  SPEEDBAR_RESPONSE_HEADERS : Option Bool
  SPEEDBAR_TRACE : Option Bool
  SPEEDBAR_PANEL : Option Bool
deriving DecidableEq

/-- Modelled from the spec: the per-request `RequestTrace` object is defined
outside `middleware.py` (in `speedbar.modules.base`, not part of the sources).
Per the spec it owns a unique identity, the root span label, references to the
request and response, an insertion-ordered mapping from module name to module
instance (insertion = registration order), and two persistence flags
defaulting to false. -/
structure RequestTrace where
  id : String
  label : String
  request : Option Request
  response : Option Response
  modules : List (String × Module)
  persist_log : Bool
  persist_details : Bool

/-- `getattr(settings, NAME, default)`. -/
def getattrD (v : Option Bool) (d : Bool) : Bool := v.getD d

/-- First-match association lookup, as in a Python dict with unique keys. -/
def assocFind {α : Type} : List (String × α) → String → Option α
  | [], _ => none
  | (a, b) :: t, k => if a = k then some b else assocFind t k

/-- `response.get(name)` on the header mapping. -/
def getHeader (r : Response) (n : String) : Option String :=
  assocFind r.headers n

def setHeaderList : List (String × String) → String → String → List (String × String)
  | [], n, v => [(n, v)]
  | (a, b) :: t, n, v => if a = n then (n, v) :: t else (a, b) :: setHeaderList t n v

/-- `response[name] = value`: replace an existing header or append a new one. -/
def setHeader (r : Response) (n v : String) : Response :=
  { r with headers := setHeaderList r.headers n v }

/-- Is `p` an initial segment of `s`?  (Used for Python's substring test.) -/
def leads : List Char → List Char → Bool
  | [], _ => true
  | _ :: _, [] => false
  | c :: p, d :: s => if c = d then leads p s else false

/-- Python's `needle in hay` substring test. -/
def containsSub : List Char → List Char → Bool
  | [], needle => needle.isEmpty
  | c :: t, needle => leads needle (c :: t) || containsSub t needle

/-- The characters before the first `';'`: `s.split(';')[0]`. -/
def beforeSemi : List Char → List Char
  | [] => []
  | c :: t => if c = ';' then [] else c :: beforeSemi t

/-- `response.get('Content-Type', '').split(';')[0]`. -/
def mainContentType (r : Response) : String :=
  ⟨beforeSemi ((getHeader r "Content-Type").getD "").data⟩

def HTML_TYPES : List String := ["text/html", "application/xhtml+xml"]

/-- Python's `str.title()` on a character list: the first alphabetic character
of each alphabetic run is upper-cased, the rest lower-cased.  The boolean
argument records whether the previous character was alphabetic. -/
def titleAux : Bool → List Char → List Char
  | _, [] => []
  | prev, c :: t =>
    (if c.isAlpha then (if prev then c.toLower else c.toUpper) else c) :: titleAux c.isAlpha t

/-- `string.title().replace(' ', '-')` from `add_response_headers.sanitize`. -/
def sanitize (s : String) : String :=
  ⟨(titleAux false s.data).map (fun c => if c = ' ' then '-' else c)⟩

def spbChars : List Char := "X-Speedbar-".data

/-- `'X-Speedbar-%s-%s' % (sanitize(module), sanitize(key))`. -/
def headerName (m k : String) : String :=
  ⟨spbChars ++ ((sanitize m).data ++ ('-' :: (sanitize k).data))⟩

/-- The sequence of header assignments performed by `add_response_headers`:
one per (module, metric) pair, in iteration order. -/
def headerAssignments (ms : Metrics) : List (String × String) :=
  ms.flatMap (fun p => p.2.map (fun q => (headerName p.1 q.1, valueStr q.2)))

/-- `add_response_headers`: perform each header assignment in order. -/
def add_response_headers (resp : Response) (ms : Metrics) : Response :=
  (headerAssignments ms).foldl (fun r a => setHeader r a.1 a.2) resp

/-- `metrics[module][metric]`; `none` models the `KeyError` case. -/
def lookupMetric (ms : Metrics) (m k : String) : Option Value :=
  match assocFind ms m with
  | some mv => assocFind mv k
  | none => none

/-- `dict((key, module.get_metrics()) for key, module in modules.items())`:
evaluated in insertion order; the first module whose `get_metrics()` raises
aborts the whole construction. -/
def collectMetrics : List (String × Module) → Except Unit Metrics
  | [] => .ok []
  | (k, m) :: t =>
    match m.get_metrics with
    | .ok mv => Except.map (fun rest => (k, mv) :: rest) (collectMetrics t)
    | .error e => .error e

/-- The module keys whose `get_metrics()` is actually invoked while building
the snapshot (all of them up to and including the first failing one). -/
def collectCalls : List (String × Module) → List String
  | [] => []
  | (k, m) :: t =>
    match m.get_metrics with
    | .ok _ => k :: collectCalls t
    | .error _ => [k]

/-- `hasattr(request, 'user') and request.user.is_staff`. -/
def hasStaffUser (req : Request) : Bool :=
  match req.user with
  | some u => u.is_staff
  | none => false

def should_return_response_headers (s : Settings) (_req : Request) : Bool :=
  getattrD s.SPEEDBAR_RESPONSE_HEADERS false

def should_return_trace_header (s : Settings) (req : Request) : Bool :=
  hasStaffUser req && getattrD s.SPEEDBAR_TRACE true

def should_replace_template_tags (req : Request) : Bool :=
  hasStaffUser req

/-- Modelled from the spec: `reverse('speedbar_trace', args=[request_trace.id])`
(the URL configuration is not among the sources); per the spec the value is a
URL embedding the trace identity. -/
def reverse_speedbar_trace (id : String) : String :=
  "/speedbar/trace/" ++ id ++ "/"

/-- Modelled from the spec: `reverse('speedbar_panel', args=[request_trace.id])`. -/
def reverse_speedbar_panel (id : String) : String :=
  "/speedbar/panel/" ++ id ++ "/"

/-- Modelled from the spec: `reverse('speedbar_details_for_this_request')`,
the placeholder URL inserted by the template tag. -/
def reverse_speedbar_details_for_this_request : String :=
  "/speedbar/details-for-this-request/"

/-! The placeholder regular expression
`<span data-module="(?P<module>[^"]+)" data-metric="(?P<metric>[^"]+)"></span>`
is embedded as a deterministic scanner: the literal pieces of the pattern,
maximal nonempty runs of non-quote characters for the two capture groups. -/

def litOpen : List Char := "<span data-module=\"".data

def litMid : List Char := "\" data-metric=\"".data

def litClose : List Char := "\"></span>".data

/-- Match a literal character sequence at the front, returning the remainder. -/
def matchLit : List Char → List Char → Option (List Char)
  | [], s => some s
  | _ :: _, [] => none
  | c :: p, d :: s => if c = d then matchLit p s else none

/-- Split off the maximal run of non-quote characters (`[^"]*` greedily). -/
def spanName : List Char → List Char × List Char
  | [] => ([], [])
  | c :: t =>
    if c = '"' then ([], c :: t)
    else
      let r := spanName t
      (c :: r.1, r.2)

/-- A `[^"]+` capture group: the maximal nonempty run of non-quote characters. -/
def takeName (s : List Char) : Option (String × List Char) :=
  let r := spanName s
  if r.1.isEmpty then none else some (⟨r.1⟩, r.2)

/-- Attempt to match the placeholder pattern at the start of `s`, returning the
module name, metric name and the remainder after the match. -/
def tryMatch (s : List Char) : Option (String × String × List Char) :=
  match matchLit litOpen s with
  | none => none
  | some s1 =>
    match takeName s1 with
    | none => none
    | some (m, s2) =>
      match matchLit litMid s2 with
      | none => none
      | some s3 =>
        match takeName s3 with
        | none => none
        | some (k, s4) =>
          match matchLit litClose s4 with
          | none => none
          | some s5 => some (m, k, s5)

/-- The exact text matched for module `M`, metric `K`. -/
def markerFor (M K : String) : List Char :=
  litOpen ++ (M.data ++ (litMid ++ (K.data ++ litClose)))

/-- A usable capture-group value: nonempty and quote-free. -/
def validName (s : String) : Bool :=
  !s.data.isEmpty && s.data.all (fun c => c ≠ '"')

/-- `replace_templatetag_placeholders`, fuelled: scan left to right for the
leftmost pattern match; on a match emit `unicode(metrics[module][metric])`
(raising, i.e. `.error`, on a missing key) and continue after the match;
otherwise emit the character and continue.  The fuel only bounds recursion
depth; one unit is consumed per character or match, so `length + 1` suffices. -/
def rtpF : Nat → List Char → Metrics → Except Unit (List Char)
  | 0, _, _ => .error ()
  | _ + 1, [], _ => .ok []
  | f + 1, c :: t, ms =>
    match tryMatch (c :: t) with
    | some (m, k, rest) =>
      match lookupMetric ms m k with
      | some v => Except.map (fun r => (valueStr v).data ++ r) (rtpF f rest ms)
      | none => .error ()
    | none => Except.map (fun r => c :: r) (rtpF f t ms)

/-- `SpeedbarMiddleware.replace_templatetag_placeholders`. -/
def replace_templatetag_placeholders (s : List Char) (ms : Metrics) : Except Unit (List Char) :=
  rtpF (s.length + 1) s ms

/-- `noMatchIn pre suffix`: no placeholder match starts inside the `pre`
portion of the content `pre ++ suffix`. -/
def noMatchIn : List Char → List Char → Bool
  | [], _ => true
  | c :: t, suffix => (tryMatch (c :: (t ++ suffix))).isNone && noMatchIn t suffix

/-- Python's `str.replace(needle, repl)` (all non-overlapping occurrences,
left to right), fuelled; one unit of fuel is consumed per emitted chunk. -/
def replAllF : Nat → List Char → List Char → List Char → List Char
  | 0, s, _, _ => s
  | _ + 1, [], _, _ => []
  | f + 1, c :: t, needle, repl =>
    if leads needle (c :: t) && !needle.isEmpty then
      repl ++ replAllF f (List.drop needle.length (c :: t)) needle repl
    else
      c :: replAllF f t needle repl

def replaceAllCh (s needle repl : List Char) : List Char :=
  replAllF (s.length + 1) s needle repl

/-! The two middleware entry points.  The response-side computation is split
into small named stages mirroring the statements of `process_response`, so the
theorems below can speak about each stage. -/

/-- `SpeedbarMiddleware.process_request`: when enabled, label the root span
with `'%s %s' % (request.method, request.path)` and stash the request. -/
def process_request (s : Settings) (req : Request) (t : RequestTrace) : RequestTrace :=
  if getattrD s.SPEEDBAR_ENABLE true then
    { t with label := req.method ++ " " ++ req.path, request := some req }
  else t

/-- Stage of `process_response`: `if self.should_return_response_headers(request):
self.add_response_headers(response, metrics)`. -/
def r1of (s : Settings) (req : Request) (resp : Response) (ms : Metrics) : Response :=
  if should_return_response_headers s req then add_response_headers resp ms else resp

/-- Stage of `process_response`: `response['X-TraceUrl'] = reverse(...)` when
the trace header should be returned. -/
def r2of (s : Settings) (req : Request) (tid : String) (r1 : Response) : Response :=
  if should_return_trace_header s req then
    setHeader r1 "X-TraceUrl" (reverse_speedbar_trace tid)
  else r1

/-- Stage of `process_response`: `request_trace.persist_log = True` when the
trace header should be returned. -/
def t2of (s : Settings) (req : Request) (t : RequestTrace) : RequestTrace :=
  if should_return_trace_header s req then { t with persist_log := true } else t

/-- The guard of the content-rewriting block:
`self.should_replace_template_tags(request)` and
`'gzip' not in response.get('Content-Encoding', '')` and
`response.get('Content-Type', '').split(';')[0] in HTML_TYPES`. -/
def guardOf (req : Request) (r2 : Response) : Bool :=
  should_replace_template_tags req
    && !containsSub ((getHeader r2 "Content-Encoding").getD "").data "gzip".data
    && HTML_TYPES.contains (mainContentType r2)

/-- Stage of `process_response`: replace the panel placeholder URL with the
panel URL when `SPEEDBAR_PANEL` is enabled. -/
def content2of (s : Settings) (tid : String) (c1 : List Char) : List Char :=
  if getattrD s.SPEEDBAR_PANEL true then
    replaceAllCh c1 reverse_speedbar_details_for_this_request.data (reverse_speedbar_panel tid).data
  else c1

/-- Stage of `process_response`: `request_trace.persist_details = True` when
`SPEEDBAR_PANEL` is enabled. -/
def t3of (s : Settings) (t : RequestTrace) : RequestTrace :=
  if getattrD s.SPEEDBAR_PANEL true then { t with persist_details := true } else t

/-- Stage of `process_response`:
`if response.get('Content-Length', None): response['Content-Length'] = len(response.content)`
(an absent or empty header value is falsy in Python). -/
def r4of (r3 : Response) (len : Nat) : Response :=
  match getHeader r3 "Content-Length" with
  | some cl => if cl = "" then r3 else setHeader r3 "Content-Length" (toString len)
  | none => r3

/-- `SpeedbarMiddleware.process_response`.  The result pairs the returned
response with the (possibly mutated) request trace; `.error` models an
uncaught exception escaping the method. -/
def process_response (s : Settings) (req : Request) (t : RequestTrace) (resp : Response) :
    Except Unit (Response × RequestTrace) :=
  if !getattrD s.SPEEDBAR_ENABLE true then .ok (resp, t)
  else
    let t1 : RequestTrace := { t with response := some resp }
    match collectMetrics t1.modules with
    | .error e => .error e
    | .ok ms =>
      let r2 := r2of s req t1.id (r1of s req resp ms)
      let t2 := t2of s req t1
      if guardOf req r2 then
        match replace_templatetag_placeholders r2.content ms with
        | .error e => .error e
        | .ok c1 =>
          let c2 := content2of s t1.id c1
          let r3 : Response := { r2 with content := c2 }
          .ok (r4of r3 c2.length, t3of s t2)
      else .ok (r2, t2)

/-! ### Concrete instances used to exercise the theorems -/

/-- No speedbar settings configured at all. -/
def noSettings : Settings := ⟨none, none, none, none⟩

def staffUser : User := ⟨true⟩

def staffReq : Request := ⟨"GET", "/home", some staffUser⟩

def anonReq : Request := ⟨"GET", "/home", none⟩

def okDbModule : Module := ⟨.ok [("queries", .int 4)]⟩

/-- A module whose `get_metrics()` raises. -/
def badModule : Module := ⟨.error ()⟩

def htmlResp : Response := ⟨[("Content-Type", "text/html")], "Hello".data⟩

def gzipResp : Response :=
  ⟨[("Content-Type", "text/html"), ("Content-Encoding", "gzip")], "Hello".data⟩

def plainTrace : RequestTrace := ⟨"t1", "", none, none, [("db", okDbModule)], false, false⟩

def badTrace : RequestTrace := ⟨"t2", "", none, none, [("db", badModule)], false, false⟩

def c2Modules : List (String × Module) :=
  [("a", ⟨.ok []⟩), ("b", badModule), ("c", ⟨.ok []⟩)]

def exMetrics : Metrics := [("db", [("queries", .int 4)])]

/-- Speedbar explicitly disabled. -/
def offSettings : Settings := ⟨some false, none, none, none⟩

/-- An HTML response whose body contains a placeholder for a metric that is
not in the snapshot. -/
def missResp : Response :=
  ⟨[("Content-Type", "text/html")], "Hi ".data ++ markerFor "db" "missing"⟩

/-! ### Lemmas about the placeholder scanner -/

lemma matchLit_self (p s : List Char) : matchLit p (p ++ s) = some s := by
  induction p with
  | nil => rfl
  | cons c t ih => simp [matchLit, ih]

lemma matchLit_len {p s t : List Char} (h : matchLit p s = some t) :
    p.length + t.length = s.length := by
  induction p generalizing s with
  | nil =>
    simp only [matchLit] at h
    cases h
    simp
  | cons c p ih =>
    cases s with
    | nil => simp [matchLit] at h
    | cons d s =>
      simp only [matchLit] at h
      split at h
      · have := ih h
        simp only [List.length_cons]
        omega
      · cases h

lemma spanName_snd_len (s : List Char) : (spanName s).2.length ≤ s.length := by
  induction s with
  | nil => simp [spanName]
  | cons c t ih =>
    simp only [spanName]
    split
    · simp
    · simp only [List.length_cons]
      omega

lemma spanName_no_quote {a : List Char} (b : List Char) (ha : ∀ c ∈ a, c ≠ '"') :
    spanName (a ++ '"' :: b) = (a, '"' :: b) := by
  induction a with
  | nil => simp [spanName]
  | cons c t ih =>
    have hc : c ≠ '"' := ha c (by simp)
    have ih' := ih (fun x hx => ha x (by simp [hx]))
    simp [spanName, hc, ih']

lemma takeName_len {s : List Char} {m : String} {rest : List Char}
    (h : takeName s = some (m, rest)) : rest.length ≤ s.length := by
  simp only [takeName] at h
  split at h
  · cases h
  · cases h
    exact spanName_snd_len s

lemma takeName_marker {a : List Char} (b : List Char) (hne : a ≠ [])
    (ha : ∀ c ∈ a, c ≠ '"') :
    takeName (a ++ '"' :: b) = some (⟨a⟩, '"' :: b) := by
  simp [takeName, spanName_no_quote b ha, hne]

lemma tryMatch_none_nil : tryMatch ([] : List Char) = none := rfl

lemma litOpen_len : litOpen.length = 19 := rfl

lemma tryMatch_len {s : List Char} {m k : String} {rest : List Char}
    (h : tryMatch s = some (m, k, rest)) : rest.length < s.length := by
  unfold tryMatch at h
  cases h1 : matchLit litOpen s <;> simp only [h1] at h
  case none => cases h
  case some s1 =>
  cases h2 : takeName s1 <;> simp only [h2] at h
  case none => cases h
  case some p2 =>
  obtain ⟨m1, s2⟩ := p2
  cases h3 : matchLit litMid s2 <;> simp only [h3] at h
  case none => cases h
  case some s3 =>
  cases h4 : takeName s3 <;> simp only [h4] at h
  case none => cases h
  case some p4 =>
  obtain ⟨k1, s4⟩ := p4
  cases h5 : matchLit litClose s4 <;> simp only [h5] at h
  case none => cases h
  case some s5 =>
  cases h
  have l1 := matchLit_len h1
  have l2 := takeName_len h2
  have l3 := matchLit_len h3
  have l4 := takeName_len h4
  have l5 := matchLit_len h5
  have : litOpen.length = 19 := rfl
  omega

lemma litMid_cons : litMid = '"' :: " data-metric=\"".data := rfl

lemma litClose_cons : litClose = '"' :: "></span>".data := rfl

lemma validName_spec {s : String} (h : validName s = true) :
    s.data ≠ [] ∧ ∀ c ∈ s.data, c ≠ '"' := by
  simp only [validName, Bool.and_eq_true, Bool.not_eq_true', List.all_eq_true,
    decide_eq_true_eq] at h
  obtain ⟨h1, h2⟩ := h
  refine ⟨?_, h2⟩
  intro hnil
  rw [hnil] at h1
  simp at h1

lemma tryMatch_marker (M K : String) (post : List Char)
    (hM : validName M = true) (hK : validName K = true) :
    tryMatch (markerFor M K ++ post) = some (M, K, post) := by
  obtain ⟨hMne, hMq⟩ := validName_spec hM
  obtain ⟨hKne, hKq⟩ := validName_spec hK
  have h1 : matchLit litOpen (markerFor M K ++ post)
      = some (M.data ++ (litMid ++ (K.data ++ (litClose ++ post)))) := by
    have e : markerFor M K ++ post
        = litOpen ++ (M.data ++ (litMid ++ (K.data ++ (litClose ++ post)))) := by
      simp [markerFor, List.append_assoc]
    rw [e, matchLit_self]
  have h2 : takeName (M.data ++ (litMid ++ (K.data ++ (litClose ++ post))))
      = some (M, '"' :: (" data-metric=\"".data ++ (K.data ++ (litClose ++ post)))) := by
    have e : litMid ++ (K.data ++ (litClose ++ post))
        = '"' :: (" data-metric=\"".data ++ (K.data ++ (litClose ++ post))) := rfl
    rw [e, takeName_marker _ hMne hMq]
  have h3 : matchLit litMid ('"' :: (" data-metric=\"".data ++ (K.data ++ (litClose ++ post))))
      = some (K.data ++ (litClose ++ post)) := by
    have e : ('"' :: (" data-metric=\"".data ++ (K.data ++ (litClose ++ post))))
        = litMid ++ (K.data ++ (litClose ++ post)) := rfl
    rw [e, matchLit_self]
  have h4 : takeName (K.data ++ (litClose ++ post)) = some (K, '"' :: ("></span>".data ++ post)) := by
    have e : litClose ++ post = '"' :: ("></span>".data ++ post) := rfl
    rw [e, takeName_marker _ hKne hKq]
  have h5 : matchLit litClose ('"' :: ("></span>".data ++ post)) = some post := by
    have e : ('"' :: ("></span>".data ++ post)) = litClose ++ post := rfl
    rw [e, matchLit_self]
  simp only [tryMatch, h1, h2, h3, h4, h5]

/-! ### Lemmas about the substitution pass -/

lemma rtpF_fuel (ms : Metrics) :
    ∀ (f g : Nat) (s : List Char), s.length < f → s.length < g → rtpF f s ms = rtpF g s ms := by
  intro f
  induction f with
  | zero => intro g s hf hg; omega
  | succ f ih =>
    intro g s hf hg
    cases g with
    | zero => omega
    | succ g =>
      cases s with
      | nil => rfl
      | cons c t =>
        simp only [rtpF]
        cases hm : tryMatch (c :: t) with
        | some mkr =>
          obtain ⟨m, k, rest⟩ := mkr
          dsimp only
          cases hl : lookupMetric ms m k with
          | some v =>
            have hlen := tryMatch_len hm
            simp only [List.length_cons] at hlen hf hg
            rw [ih g rest (by omega) (by omega)]
          | none => rfl
        | none =>
          dsimp only
          simp only [List.length_cons] at hf hg
          rw [ih g t (by omega) (by omega)]

lemma rtp_cons_nomatch {c : Char} {t : List Char} {ms : Metrics}
    (h : tryMatch (c :: t) = none) :
    replace_templatetag_placeholders (c :: t) ms
      = Except.map (fun r => c :: r) (replace_templatetag_placeholders t ms) := by
  simp only [replace_templatetag_placeholders, List.length_cons, rtpF, h]

lemma rtp_match {s : List Char} {ms : Metrics} {m k : String} {rest : List Char} {v : Value}
    (h : tryMatch s = some (m, k, rest)) (hv : lookupMetric ms m k = some v) :
    replace_templatetag_placeholders s ms
      = Except.map (fun r => (valueStr v).data ++ r) (replace_templatetag_placeholders rest ms) := by
  cases s with
  | nil => rw [tryMatch_none_nil] at h; cases h
  | cons c t =>
    simp only [replace_templatetag_placeholders, List.length_cons, rtpF, h, hv]
    congr 1
    have hlen := tryMatch_len h
    simp only [List.length_cons] at hlen
    exact rtpF_fuel ms _ _ rest (by omega) (by omega)

lemma rtp_match_err {s : List Char} {ms : Metrics} {m k : String} {rest : List Char}
    (h : tryMatch s = some (m, k, rest)) (hv : lookupMetric ms m k = none) :
    replace_templatetag_placeholders s ms = .error () := by
  cases s with
  | nil => rw [tryMatch_none_nil] at h; cases h
  | cons c t =>
    simp only [replace_templatetag_placeholders, List.length_cons, rtpF, h, hv]

lemma rtp_append_nomatch (pre suffix : List Char) (ms : Metrics)
    (h : noMatchIn pre suffix = true) :
    replace_templatetag_placeholders (pre ++ suffix) ms
      = Except.map (fun r => pre ++ r) (replace_templatetag_placeholders suffix ms) := by
  induction pre with
  | nil =>
    simp only [List.nil_append]
    cases replace_templatetag_placeholders suffix ms <;> simp [Except.map]
  | cons c t ih =>
    simp only [noMatchIn, Bool.and_eq_true, Option.isNone_iff_eq_none] at h
    obtain ⟨h1, h2⟩ := h
    have e1 : ((c :: t) ++ suffix) = c :: (t ++ suffix) := rfl
    rw [e1, rtp_cons_nomatch h1, ih h2]
    cases replace_templatetag_placeholders suffix ms <;> simp [Except.map]

/-! ### Lemmas about headers -/

lemma assocFind_setHeaderList (l : List (String × String)) (n v q : String) :
    assocFind (setHeaderList l n v) q = if q = n then some v else assocFind l q := by
  induction l with
  | nil =>
    simp only [setHeaderList, assocFind]
    by_cases h : q = n
    · subst h; simp
    · rw [if_neg h, if_neg (fun hh => h hh.symm)]
  | cons p t ih =>
    obtain ⟨a, b⟩ := p
    by_cases han : a = n <;> by_cases hqn : q = n <;> by_cases haq : a = q <;>
      simp_all [setHeaderList, assocFind]

lemma getHeader_setHeader (r : Response) (n v q : String) :
    getHeader (setHeader r n v) q = if q = n then some v else getHeader r q := by
  simp [getHeader, setHeader, assocFind_setHeaderList]

lemma setHeader_content (r : Response) (n v : String) :
    (setHeader r n v).content = r.content := rfl

lemma mem_setHeaderList {l : List (String × String)} {n v q w : String}
    (h : (q, w) ∈ setHeaderList l n v) : (q, w) ∈ l ∨ (q = n ∧ w = v) := by
  induction l with
  | nil => simp [setHeaderList] at h; exact Or.inr ⟨h.1, h.2⟩
  | cons p t ih =>
    obtain ⟨a, b⟩ := p
    by_cases han : a = n
    · simp only [setHeaderList, if_pos han] at h
      rcases List.mem_cons.1 h with h1 | h1
      · exact Or.inr ⟨congrArg Prod.fst h1, congrArg Prod.snd h1⟩
      · exact Or.inl (List.mem_cons_of_mem _ h1)
    · simp only [setHeaderList, if_neg han] at h
      rcases List.mem_cons.1 h with h1 | h1
      · exact Or.inl (List.mem_cons.2 (Or.inl h1))
      · rcases ih h1 with h2 | h2
        · exact Or.inl (List.mem_cons_of_mem _ h2)
        · exact Or.inr h2

lemma foldl_setHeader_content (l : List (String × String)) (r : Response) :
    (l.foldl (fun r a => setHeader r a.1 a.2) r).content = r.content := by
  induction l generalizing r with
  | nil => rfl
  | cons a t ih => simp only [List.foldl_cons]; rw [ih, setHeader_content]

lemma foldl_setHeader_get (l : List (String × String)) (r : Response) (q : String)
    (h : ∀ a ∈ l, a.1 ≠ q) :
    getHeader (l.foldl (fun r a => setHeader r a.1 a.2) r) q = getHeader r q := by
  induction l generalizing r with
  | nil => rfl
  | cons a t ih =>
    simp only [List.foldl_cons]
    rw [ih _ (fun x hx => h x (List.mem_cons_of_mem _ hx)), getHeader_setHeader]
    have := h a (List.mem_cons_self a t)
    rw [if_neg (fun hq => this hq.symm)]

lemma mem_foldl_setHeader {l : List (String × String)} {r : Response} {q w : String}
    (h : (q, w) ∈ (l.foldl (fun r a => setHeader r a.1 a.2) r).headers) :
    (q, w) ∈ r.headers ∨ ∃ a ∈ l, q = a.1 := by
  induction l generalizing r with
  | nil => exact Or.inl h
  | cons a t ih =>
    simp only [List.foldl_cons] at h
    rcases ih h with h1 | h1
    · rcases mem_setHeaderList h1 with h2 | h2
      · exact Or.inl h2
      · exact Or.inr ⟨a, List.mem_cons_self a t, h2.1⟩
    · obtain ⟨x, hx, hq⟩ := h1
      exact Or.inr ⟨x, List.mem_cons_of_mem _ hx, hq⟩

lemma leads_append_self (p q : List Char) : leads p (p ++ q) = true := by
  induction p with
  | nil => rfl
  | cons c t ih => simp [leads, ih]

lemma headerName_leads (m k : String) : leads spbChars (headerName m k).data = true := by
  have e : (headerName m k).data = spbChars ++ ((sanitize m).data ++ ('-' :: (sanitize k).data)) := rfl
  rw [e, leads_append_self]

lemma headerName_ne {m k q : String} (hq : leads spbChars q.data = false) :
    headerName m k ≠ q := by
  intro h
  rw [← h, headerName_leads] at hq
  cases hq

lemma headerAssignments_leads {ms : Metrics} {a : String × String}
    (h : a ∈ headerAssignments ms) : leads spbChars a.1.data = true := by
  simp only [headerAssignments, List.mem_flatMap, List.mem_map] at h
  obtain ⟨p, _, q, _, rfl⟩ := h
  exact headerName_leads _ _

lemma getHeader_add {resp : Response} {ms : Metrics} {q : String}
    (hq : leads spbChars q.data = false) :
    getHeader (add_response_headers resp ms) q = getHeader resp q := by
  apply foldl_setHeader_get
  intro a ha hcontra
  rw [← hcontra] at hq
  rw [headerAssignments_leads ha] at hq
  cases hq

lemma add_response_headers_content (resp : Response) (ms : Metrics) :
    (add_response_headers resp ms).content = resp.content :=
  foldl_setHeader_content _ _

/-! ### Lemmas about the `process_response` stages -/

lemma r1of_get {s : Settings} {req : Request} {resp : Response} {ms : Metrics} {q : String}
    (hq : leads spbChars q.data = false) :
    getHeader (r1of s req resp ms) q = getHeader resp q := by
  unfold r1of
  split
  · exact getHeader_add hq
  · rfl

lemma r1of_content (s : Settings) (req : Request) (resp : Response) (ms : Metrics) :
    (r1of s req resp ms).content = resp.content := by
  unfold r1of
  split
  · exact add_response_headers_content _ _
  · rfl

lemma r2of_get_ne {s : Settings} {req : Request} {tid : String} {r1 : Response} {q : String}
    (hq : q ≠ "X-TraceUrl") :
    getHeader (r2of s req tid r1) q = getHeader r1 q := by
  unfold r2of
  split
  · rw [getHeader_setHeader, if_neg hq]
  · rfl

lemma r2of_get_trace {s : Settings} {req : Request} {tid : String} {r1 : Response}
    (h0 : getHeader r1 "X-TraceUrl" = none) :
    getHeader (r2of s req tid r1) "X-TraceUrl"
      = if should_return_trace_header s req then some (reverse_speedbar_trace tid) else none := by
  unfold r2of
  split
  · rw [getHeader_setHeader, if_pos rfl]
  · exact h0

lemma r2of_content (s : Settings) (req : Request) (tid : String) (r1 : Response) :
    (r2of s req tid r1).content = r1.content := by
  unfold r2of
  split
  · rfl
  · rfl

lemma mem_r2of {s : Settings} {req : Request} {tid : String} {r1 : Response} {q w : String}
    (h : (q, w) ∈ (r2of s req tid r1).headers) : (q, w) ∈ r1.headers ∨ q = "X-TraceUrl" := by
  unfold r2of at h
  split at h
  · rcases mem_setHeaderList h with h1 | h1
    · exact Or.inl h1
    · exact Or.inr h1.1
  · exact Or.inl h

lemma r4of_get_ne {r3 : Response} {len : Nat} {q : String} (hq : q ≠ "Content-Length") :
    getHeader (r4of r3 len) q = getHeader r3 q := by
  unfold r4of
  split
  · split
    · rfl
    · rw [getHeader_setHeader, if_neg hq]
  · rfl

lemma r4of_content (r3 : Response) (len : Nat) : (r4of r3 len).content = r3.content := by
  unfold r4of
  split
  · split
    · rfl
    · rfl
  · rfl

lemma mem_r4of {r3 : Response} {len : Nat} {q w : String}
    (h : (q, w) ∈ (r4of r3 len).headers) : (q, w) ∈ r3.headers ∨ q = "Content-Length" := by
  unfold r4of at h
  split at h
  · split at h
    · exact Or.inl h
    · rcases mem_setHeaderList h with h1 | h1
      · exact Or.inl h1
      · exact Or.inr h1.1
  · exact Or.inl h

lemma t2of_log (s : Settings) (req : Request) (t : RequestTrace) :
    (t2of s req t).persist_log = (should_return_trace_header s req || t.persist_log) := by
  by_cases h : should_return_trace_header s req <;> simp [t2of, h]

lemma t2of_det (s : Settings) (req : Request) (t : RequestTrace) :
    (t2of s req t).persist_details = t.persist_details := by
  by_cases h : should_return_trace_header s req <;> simp [t2of, h]

lemma t3of_log (s : Settings) (t : RequestTrace) :
    (t3of s t).persist_log = t.persist_log := by
  by_cases h : getattrD s.SPEEDBAR_PANEL true <;> simp [t3of, h]

lemma t3of_det (s : Settings) (t : RequestTrace) :
    (t3of s t).persist_details = (getattrD s.SPEEDBAR_PANEL true || t.persist_details) := by
  by_cases h : getattrD s.SPEEDBAR_PANEL true <;> simp [t3of, h]

lemma getHeader_content_update (r : Response) (c : List Char) (q : String) :
    getHeader { r with content := c } q = getHeader r q := rfl

/-- The rewrite guard evaluated on the header-augmented response equals the
guard evaluated on the incoming response: neither the metric headers nor the
trace header touch `Content-Encoding` or `Content-Type`. -/
lemma guardOf_r2 (s : Settings) (req : Request) (tid : String) (resp : Response) (ms : Metrics) :
    guardOf req (r2of s req tid (r1of s req resp ms)) = guardOf req resp := by
  unfold guardOf
  rw [r2of_get_ne (by decide), r1of_get (by decide)]
  have hct : getHeader (r2of s req tid (r1of s req resp ms)) "Content-Type"
      = getHeader resp "Content-Type" := by
    rw [r2of_get_ne (by decide), r1of_get (by decide)]
  unfold mainContentType
  rw [hct]

/-! ### Lemmas about metric collection -/

lemma except_isOk_ok {α : Type} {e : Except Unit α} (h : e.isOk = true) : ∃ v, e = .ok v := by
  cases e with
  | ok v => exact ⟨v, rfl⟩
  | error u => simp [Except.isOk, Except.toBool] at h

lemma except_isOk_err {α : Type} {e : Except Unit α} (h : e.isOk = false) : e = .error () := by
  cases e with
  | ok v => simp [Except.isOk, Except.toBool] at h
  | error u => cases u; rfl

lemma collectMetrics_all_ok {mods : List (String × Module)}
    (h : ∀ p ∈ mods, p.2.get_metrics.isOk = true) :
    ∃ out, collectMetrics mods = .ok out ∧ out.map Prod.fst = mods.map Prod.fst := by
  induction mods with
  | nil => exact ⟨[], rfl, rfl⟩
  | cons p t ih =>
    obtain ⟨a, m⟩ := p
    obtain ⟨mv, hmv⟩ := except_isOk_ok (h (a, m) (List.mem_cons_self _ _))
    have hmv' : m.get_metrics = Except.ok mv := hmv
    obtain ⟨out, hout, hkeys⟩ := ih (fun x hx => h x (List.mem_cons_of_mem _ hx))
    refine ⟨(a, mv) :: out, ?_, by simp [hkeys]⟩
    simp [collectMetrics, hmv', hout, Except.map]

lemma collectCalls_all_ok {mods : List (String × Module)}
    (h : ∀ p ∈ mods, p.2.get_metrics.isOk = true) :
    collectCalls mods = mods.map Prod.fst := by
  induction mods with
  | nil => rfl
  | cons p t ih =>
    obtain ⟨a, m⟩ := p
    obtain ⟨mv, hmv⟩ := except_isOk_ok (h (a, m) (List.mem_cons_self _ _))
    have hmv' : m.get_metrics = Except.ok mv := hmv
    simp [collectCalls, hmv', ih (fun x hx => h x (List.mem_cons_of_mem _ hx))]

lemma collectMetrics_err {pre : List (String × Module)} {bad : String × Module}
    (post : List (String × Module))
    (hpre : ∀ p ∈ pre, p.2.get_metrics.isOk = true)
    (hbad : bad.2.get_metrics.isOk = false) :
    collectMetrics (pre ++ bad :: post) = .error () ∧
    collectCalls (pre ++ bad :: post) = pre.map Prod.fst ++ [bad.1] := by
  induction pre with
  | nil =>
    obtain ⟨a, m⟩ := bad
    have hbad' : m.get_metrics = Except.error () := except_isOk_err hbad
    simp [collectMetrics, collectCalls, hbad']
  | cons p t ih =>
    obtain ⟨a, m⟩ := p
    obtain ⟨mv, hmv⟩ := except_isOk_ok (hpre (a, m) (List.mem_cons_self _ _))
    have hmv' : m.get_metrics = Except.ok mv := hmv
    obtain ⟨h1, h2⟩ := ih (fun x hx => hpre x (List.mem_cons_of_mem _ hx))
    constructor
    · simp [collectMetrics, hmv', h1, Except.map]
    · simp [collectCalls, hmv', h2]

/-! ### Shape of a successful `process_response` run -/

/-- Case analysis on a successful `process_response` run: either speedbar is
disabled and nothing happened, or metrics were collected and the content was
rewritten (guard true), or metrics were collected and the content left alone
(guard false). -/
lemma process_response_ok_cases {s : Settings} {req : Request} {t : RequestTrace}
    {resp : Response} {r' : Response} {t' : RequestTrace}
    (h : process_response s req t resp = .ok (r', t')) :
    (getattrD s.SPEEDBAR_ENABLE true = false ∧ r' = resp ∧ t' = t) ∨
    (∃ ms c1, getattrD s.SPEEDBAR_ENABLE true = true ∧
      collectMetrics t.modules = .ok ms ∧
      guardOf req (r2of s req t.id (r1of s req resp ms)) = true ∧
      replace_templatetag_placeholders (r2of s req t.id (r1of s req resp ms)).content ms
        = .ok c1 ∧
      r' = r4of { r2of s req t.id (r1of s req resp ms) with content := content2of s t.id c1 }
             (content2of s t.id c1).length ∧
      t' = t3of s (t2of s req { t with response := some resp })) ∨
    (∃ ms, getattrD s.SPEEDBAR_ENABLE true = true ∧
      collectMetrics t.modules = .ok ms ∧
      guardOf req (r2of s req t.id (r1of s req resp ms)) = false ∧
      r' = r2of s req t.id (r1of s req resp ms) ∧
      t' = t2of s req { t with response := some resp }) := by
  by_cases hEn : getattrD s.SPEEDBAR_ENABLE true
  · right
    simp only [process_response, hEn, Bool.not_true, Bool.false_eq_true, if_false] at h
    cases hc : collectMetrics t.modules with
    | error e =>
      simp only [hc] at h
      cases h
    | ok ms =>
      simp only [hc] at h
      by_cases hg : guardOf req (r2of s req t.id (r1of s req resp ms))
      · left
        simp only [hg, if_true] at h
        cases hrtp : replace_templatetag_placeholders
            (r2of s req t.id (r1of s req resp ms)).content ms with
        | error e =>
          simp only [hrtp] at h
          cases h
        | ok c1 =>
          simp only [hrtp, Except.ok.injEq, Prod.mk.injEq] at h
          exact ⟨ms, c1, hEn, rfl, hg, hrtp, h.1.symm, h.2.symm⟩
      · right
        simp only [Bool.not_eq_true] at hg
        simp only [hg, Bool.false_eq_true, if_false, Except.ok.injEq, Prod.mk.injEq] at h
        exact ⟨ms, hEn, rfl, hg, h.1.symm, h.2.symm⟩
  · left
    simp only [Bool.not_eq_true] at hEn
    simp only [process_response, hEn, Bool.not_false, if_true, Except.ok.injEq,
      Prod.mk.injEq] at h
    exact ⟨hEn, h.1.symm, h.2.symm⟩

/-! ### Small list lemmas for the header-assignment claim -/

lemma filter_eq_nil_of_not_mem {α : Type} {t : List (String × α)} {n : String}
    (h : n ∉ t.map Prod.fst) : t.filter (fun a => a.1 = n) = [] := by
  induction t with
  | nil => rfl
  | cons p t ih =>
    simp only [List.map_cons, List.mem_cons, not_or] at h
    obtain ⟨h1, h2⟩ := h
    simp only [List.filter_cons]
    rw [if_neg (by simpa using fun hp => h1 hp.symm)]
    exact ih h2

lemma filter_eq_single {α : Type} {l : List (String × α)} {n : String} {v : α}
    (hmem : (n, v) ∈ l) (hnd : (l.map Prod.fst).Nodup) :
    l.filter (fun a => a.1 = n) = [(n, v)] := by
  induction l with
  | nil => cases hmem
  | cons p t ih =>
    obtain ⟨a, b⟩ := p
    simp only [List.map_cons, List.nodup_cons] at hnd
    obtain ⟨hna, hndt⟩ := hnd
    rcases List.mem_cons.1 hmem with h1 | h1
    · injection h1 with h1a h1b
      subst h1a
      subst h1b
      have hfil : t.filter (fun a => a.1 = n) = [] := filter_eq_nil_of_not_mem hna
      simp [List.filter_cons, hfil]
    · have hne : a ≠ n := by
        intro hc
        subst hc
        exact hna (List.mem_map_of_mem Prod.fst h1)
      simp only [List.filter_cons]
      rw [if_neg (by simpa using hne)]
      exact ih h1 hndt

/-! ### The claims -/

/-- Claim C1, counterexample: with instrumentation enabled, a staff user and a
module whose `get_metrics()` raises while the snapshot is built,
`process_response` does NOT return the response — the exception propagates and
the page load fails, contradicting the claim that instrumentation failures
never turn into a failed page load. -/
theorem claim_C1_counterexample :
    process_response noSettings staffReq badTrace htmlResp = .error () := rfl

/-- Claim C1 as amended: a failure inside the instrumentation during response
processing propagates out of `process_response` — if a module's `get_metrics`
raises while the snapshot is built, or a placeholder lookup fails during
substitution of an HTML response, `process_response` raises instead of
returning the response, so the page load fails. -/
theorem claim_C1 :
    (∀ (s : Settings) (req : Request) (t : RequestTrace) (resp : Response),
       getattrD s.SPEEDBAR_ENABLE true = true →
       collectMetrics t.modules = .error () →
       process_response s req t resp = .error ()) ∧
    (∀ (s : Settings) (req : Request) (t : RequestTrace) (resp : Response) (ms : Metrics),
       getattrD s.SPEEDBAR_ENABLE true = true →
       collectMetrics t.modules = .ok ms →
       guardOf req (r2of s req t.id (r1of s req resp ms)) = true →
       replace_templatetag_placeholders (r2of s req t.id (r1of s req resp ms)).content ms
         = .error () →
       process_response s req t resp = .error ()) := by
  constructor
  · intro s req t resp hEn hc
    simp only [process_response, hEn, Bool.not_true, Bool.false_eq_true, if_false, hc]
  · intro s req t resp ms hEn hc hg hrtp
    simp only [process_response, hEn, Bool.not_true, Bool.false_eq_true, if_false, hc, hg,
      if_true, hrtp]

/-- Witness for the amended claim C1 at concrete inputs: a raising module, and
a missing placeholder key, each abort `process_response`. -/
theorem claim_C1_witness :
    process_response noSettings staffReq badTrace gzipResp = .error () ∧
    process_response noSettings staffReq plainTrace missResp = .error () :=
  ⟨claim_C1.1 noSettings staffReq badTrace gzipResp rfl rfl,
   claim_C1.2 noSettings staffReq plainTrace missResp [("db", [("queries", Value.int 4)])]
     rfl rfl rfl rfl⟩

/-- Claim C2, counterexample: with registered modules `a` (summarize ok),
`b` (summarize raises), `c` (summarize ok), building the snapshot aborts with
the propagated error: no mapping is produced at all (so it does not contain
entries for the other modules), and `c`'s summarize is never called. -/
theorem claim_C2_counterexample :
    collectMetrics c2Modules = .error () ∧ collectCalls c2Modules = ["a", "b"] :=
  ⟨rfl, rfl⟩

/-- Claim C2 as amended: the snapshot calls each registered module's
`get_metrics` exactly once, in registration order, only until one raises.  If
every call succeeds the mapping has exactly one entry per module in
registration order; if a module raises, the whole snapshot construction aborts
with the error (modules after it are not called, no partial mapping is
produced). -/
theorem claim_C2 :
    (∀ mods : List (String × Module), (∀ p ∈ mods, p.2.get_metrics.isOk = true) →
       (∃ out, collectMetrics mods = .ok out ∧ out.map Prod.fst = mods.map Prod.fst) ∧
       collectCalls mods = mods.map Prod.fst) ∧
    (∀ (pre : List (String × Module)) (bad : String × Module)
       (post : List (String × Module)),
       (∀ p ∈ pre, p.2.get_metrics.isOk = true) → bad.2.get_metrics.isOk = false →
       collectMetrics (pre ++ bad :: post) = .error () ∧
       collectCalls (pre ++ bad :: post) = pre.map Prod.fst ++ [bad.1]) :=
  ⟨fun _ h => ⟨collectMetrics_all_ok h, collectCalls_all_ok h⟩,
   fun _ _ post hpre hbad => collectMetrics_err post hpre hbad⟩

/-- Witness for the amended claim C2 at concrete module lists. -/
theorem claim_C2_witness :
    ((∃ out, collectMetrics [("db", okDbModule)] = .ok out ∧
        out.map Prod.fst = [("db", okDbModule)].map Prod.fst) ∧
      collectCalls [("db", okDbModule)] = [("db", okDbModule)].map Prod.fst) ∧
    (collectMetrics ([("a", (⟨.ok []⟩ : Module))] ++ ("b", badModule) :: [("c", ⟨.ok []⟩)])
        = .error () ∧
      collectCalls ([("a", (⟨.ok []⟩ : Module))] ++ ("b", badModule) :: [("c", ⟨.ok []⟩)])
        = [("a", (⟨.ok []⟩ : Module))].map Prod.fst ++ ["b"]) :=
  ⟨claim_C2.1 _ (by decide), claim_C2.2 _ _ _ (by decide) (by decide)⟩

/-- Claim C3: when the derived header names are collision-free, each
(module, metric) pair of the snapshot gives rise to exactly one header
assignment, whose name is the title-cased hyphen-joined `X-Speedbar-` name and
whose value is the metric's string form; and module `db`, metric `query count`
derive the header name `X-Speedbar-Db-Query-Count`. -/
theorem claim_C3 (ms : Metrics) (mv : MetricMap) (m k : String) (v : Value)
    (h1 : (m, mv) ∈ ms) (h2 : (k, v) ∈ mv)
    (hnd : ((headerAssignments ms).map Prod.fst).Nodup) :
    (headerAssignments ms).filter (fun a => a.1 = headerName m k)
      = [(headerName m k, valueStr v)] ∧
    headerName "db" "query count" = "X-Speedbar-Db-Query-Count" := by
  refine ⟨filter_eq_single ?_ hnd, by decide⟩
  simp only [headerAssignments, List.mem_flatMap, List.mem_map]
  exact ⟨(m, mv), h1, (k, v), h2, rfl⟩

/-- Witness for claim C3 at the spec's own example. -/
theorem claim_C3_witness :
    (headerAssignments [("db", [("query count", Value.str "7")])]).filter
        (fun a => a.1 = headerName "db" "query count")
      = [(headerName "db" "query count", valueStr (Value.str "7"))] ∧
    headerName "db" "query count" = "X-Speedbar-Db-Query-Count" :=
  claim_C3 [("db", [("query count", Value.str "7")])] [("query count", Value.str "7")]
    "db" "query count" (Value.str "7") (by decide) (by decide) (by decide)

/-- Claim C4: for content `pre ++ marker(M, K) ++ post` in which the leftmost
placeholder marker is the one for module `M`, metric `K` (no match starts
inside `pre`), if the snapshot maps `M`, `K` to `v` then the substitution pass
replaces that marker with the string form of `v` — it does not remain in the
output, which is exactly `pre` followed by `str(v)` followed by the
substitution of `post`. -/
theorem claim_C4 (pre post out : List Char) (M K : String) (v : Value) (ms : Metrics)
    (hM : validName M = true) (hK : validName K = true)
    (hv : lookupMetric ms M K = some v)
    (hpre : noMatchIn pre (markerFor M K ++ post) = true)
    (hpost : replace_templatetag_placeholders post ms = .ok out) :
    replace_templatetag_placeholders (pre ++ markerFor M K ++ post) ms
      = .ok (pre ++ (valueStr v).data ++ out) := by
  rw [List.append_assoc, rtp_append_nomatch pre (markerFor M K ++ post) ms hpre,
    rtp_match (tryMatch_marker M K post hM hK) hv, hpost, List.append_assoc]
  rfl

/-- Witness for claim C4: the spec's example — content with the marker for
module `db`, metric `queries` and snapshot `db.queries = 4` yields the content
with the marker replaced by `4`. -/
theorem claim_C4_witness :
    replace_templatetag_placeholders
        ("A: ".data ++ markerFor "db" "queries" ++ " B".data) exMetrics
      = .ok ("A: ".data ++ (valueStr (Value.int 4)).data ++ " B".data) :=
  claim_C4 "A: ".data " B".data " B".data "db" "queries" (Value.int 4) exMetrics
    (by decide) (by decide) (by decide) (by decide) rfl

/-- Claim C5: if the content contains a placeholder marker whose
(module, metric) pair is missing from the snapshot, the whole substitution
pass fails with the propagated lookup error — it neither leaves the
placeholder in place nor substitutes a fallback value. -/
theorem claim_C5 (pre post : List Char) (M K : String) (ms : Metrics)
    (hM : validName M = true) (hK : validName K = true)
    (hv : lookupMetric ms M K = none)
    (hpre : noMatchIn pre (markerFor M K ++ post) = true) :
    replace_templatetag_placeholders (pre ++ markerFor M K ++ post) ms = .error () := by
  rw [List.append_assoc, rtp_append_nomatch pre (markerFor M K ++ post) ms hpre,
    rtp_match_err (tryMatch_marker M K post hM hK) hv]
  rfl

/-- Witness for claim C5: a marker for the missing key `db`/`missing` makes
the substitution pass fail. -/
theorem claim_C5_witness :
    replace_templatetag_placeholders
        ("x ".data ++ markerFor "db" "missing" ++ " y".data) exMetrics = .error () :=
  claim_C5 "x ".data " y".data "db" "missing" exMetrics
    (by decide) (by decide) (by decide) (by decide)

/-- Claim C9: with the master enable flag configured false, `process_request`
leaves the request trace untouched and `process_response` returns the given
response unchanged with the trace unchanged — no headers, no content
substitution, no persistence flags. -/
theorem claim_C9 (s : Settings) (req : Request) (t : RequestTrace) (resp : Response)
    (h : s.SPEEDBAR_ENABLE = some false) :
    process_request s req t = t ∧ process_response s req t resp = .ok (resp, t) := by
  have hEn : getattrD s.SPEEDBAR_ENABLE true = false := by rw [h]; rfl
  constructor
  · simp only [process_request, hEn, Bool.false_eq_true, if_false]
  · simp only [process_response, hEn, Bool.not_false, if_true]

/-- Witness for claim C9 at concrete inputs. -/
theorem claim_C9_witness :
    process_request offSettings staffReq plainTrace = plainTrace ∧
    process_response offSettings staffReq plainTrace htmlResp = .ok (htmlResp, plainTrace) :=
  claim_C9 offSettings staffReq plainTrace htmlResp rfl

/-- Claim C6: the `X-TraceUrl` header is present on the returned response
exactly when speedbar is enabled and the request qualifies (has a staff user
while `SPEEDBAR_TRACE` is enabled), and its value is the URL built from the
trace's identity; for every non-qualifying request it is absent (provided the
incoming response did not already carry it). -/
theorem claim_C6 (s : Settings) (req : Request) (t : RequestTrace) (resp : Response)
    (r' : Response) (t' : RequestTrace)
    (h : process_response s req t resp = .ok (r', t'))
    (h0 : getHeader resp "X-TraceUrl" = none) :
    getHeader r' "X-TraceUrl"
      = if getattrD s.SPEEDBAR_ENABLE true && should_return_trace_header s req then
          some (reverse_speedbar_trace t.id)
        else none := by
  rcases process_response_ok_cases h with
    ⟨hEn, rfl, _⟩ | ⟨ms, c1, hEn, hc, hg, hrtp, rfl, _⟩ | ⟨ms, hEn, hc, hg, rfl, _⟩
  · rw [hEn]
    simpa using h0
  · rw [hEn, Bool.true_and]
    rw [r4of_get_ne (by decide), getHeader_content_update,
      r2of_get_trace (by rw [r1of_get (by decide)]; exact h0)]
  · rw [hEn, Bool.true_and]
    rw [r2of_get_trace (by rw [r1of_get (by decide)]; exact h0)]

/-- Witness for claim C6: with default settings and a staff user the returned
response carries `X-TraceUrl` with the trace-identity URL. -/
theorem claim_C6_witness :
    ∃ r' t', process_response noSettings staffReq plainTrace htmlResp = .ok (r', t') ∧
      getHeader r' "X-TraceUrl" = some (reverse_speedbar_trace plainTrace.id) := by
  refine ⟨_, _, rfl, ?_⟩
  have h := claim_C6 noSettings staffReq plainTrace htmlResp _ _ rfl rfl
  have hb : (getattrD noSettings.SPEEDBAR_ENABLE true
      && should_return_trace_header noSettings staffReq) = true := rfl
  rw [hb] at h
  simpa using h

/-- Claim C7: starting from a trace with both persistence flags false,
`persist_log` ends true exactly when the trace header is returned (enabled and
qualifying), and `persist_details` ends true exactly when the content rewrite
runs (enabled, privileged user, non-gzip HTML response) with `SPEEDBAR_PANEL`
enabled; for every non-qualifying request both flags remain false. -/
theorem claim_C7 (s : Settings) (req : Request) (t : RequestTrace) (resp : Response)
    (r' : Response) (t' : RequestTrace)
    (hlog : t.persist_log = false) (hdet : t.persist_details = false)
    (h : process_response s req t resp = .ok (r', t')) :
    t'.persist_log = (getattrD s.SPEEDBAR_ENABLE true && should_return_trace_header s req) ∧
    t'.persist_details = (getattrD s.SPEEDBAR_ENABLE true && guardOf req resp
      && getattrD s.SPEEDBAR_PANEL true) := by
  rcases process_response_ok_cases h with
    ⟨hEn, _, rfl⟩ | ⟨ms, c1, hEn, hc, hg, hrtp, _, rfl⟩ | ⟨ms, hEn, hc, hg, _, rfl⟩
  · rw [hEn]
    simp [hlog, hdet]
  · have hg' : guardOf req resp = true := by
      rw [← guardOf_r2 s req t.id resp ms]; exact hg
    rw [hEn, hg']
    simp only [Bool.true_and]
    constructor
    · rw [t3of_log, t2of_log]
      simp [hlog]
    · rw [t3of_det, t2of_det]
      simp [hdet]
  · have hg' : guardOf req resp = false := by
      rw [← guardOf_r2 s req t.id resp ms]; exact hg
    rw [hEn, hg']
    simp only [Bool.true_and, Bool.false_and]
    constructor
    · rw [t2of_log]
      simp [hlog]
    · rw [t2of_det]
      simp [hdet]

/-- Witness for claim C7: with default settings, a staff user and an HTML
response both persistence flags end up true. -/
theorem claim_C7_witness :
    ∃ r' t', process_response noSettings staffReq plainTrace htmlResp = .ok (r', t') ∧
      t'.persist_log = true ∧ t'.persist_details = true := by
  refine ⟨_, _, rfl, ?_, ?_⟩
  · exact ((claim_C7 noSettings staffReq plainTrace htmlResp _ _ rfl rfl rfl).1).trans
      (by decide)
  · exact ((claim_C7 noSettings staffReq plainTrace htmlResp _ _ rfl rfl rfl).2).trans
      (by decide)

/-- Claim C8: with no settings configured, the master enable flag reads true,
response headers are off, the trace header predicate holds for staff users,
the panel option reads true, and a `process_response` run adds no `X-Speedbar`
metric headers — every header of the returned response is either a header of
the incoming response, the trace header, or the content-length update. -/
theorem claim_C8 :
    getattrD noSettings.SPEEDBAR_ENABLE true = true ∧
    (∀ req, should_return_response_headers noSettings req = false) ∧
    (∀ req, hasStaffUser req = true → should_return_trace_header noSettings req = true) ∧
    getattrD noSettings.SPEEDBAR_PANEL true = true ∧
    (∀ (req : Request) (t : RequestTrace) (resp : Response) (r' : Response)
       (t' : RequestTrace), process_response noSettings req t resp = .ok (r', t') →
       ∀ q w, (q, w) ∈ r'.headers →
         (q, w) ∈ resp.headers ∨ q = "X-TraceUrl" ∨ q = "Content-Length") := by
  refine ⟨rfl, fun _ => rfl, fun req h => ?_, rfl, ?_⟩
  · show (hasStaffUser req && getattrD noSettings.SPEEDBAR_TRACE true) = true
    rw [h]
    rfl
  · intro req t resp r' t' h q w hqw
    rcases process_response_ok_cases h with
      ⟨_, rfl, _⟩ | ⟨ms, c1, hEn, hc, hg, hrtp, rfl, _⟩ | ⟨ms, hEn, hc, hg, rfl, _⟩
    · exact Or.inl hqw
    · rcases mem_r4of hqw with h1 | h1
      · have h1' : (q, w) ∈ (r2of noSettings req t.id (r1of noSettings req resp ms)).headers :=
          h1
        rcases mem_r2of h1' with h2 | h2
        · have e : r1of noSettings req resp ms = resp := rfl
          rw [e] at h2
          exact Or.inl h2
        · exact Or.inr (Or.inl h2)
      · exact Or.inr (Or.inr h1)
    · rcases mem_r2of hqw with h2 | h2
      · have e : r1of noSettings req resp ms = resp := rfl
        rw [e] at h2
        exact Or.inl h2
      · exact Or.inr (Or.inl h2)

/-- Witness for claim C8: a concrete run whose returned headers are only the
original ones plus `X-TraceUrl`, and a staff request satisfying the trace
predicate. -/
theorem claim_C8_witness :
    should_return_trace_header noSettings staffReq = true ∧
    (∃ r' t', process_response noSettings staffReq plainTrace htmlResp = .ok (r', t') ∧
      ∀ q w, (q, w) ∈ r'.headers →
        (q, w) ∈ htmlResp.headers ∨ q = "X-TraceUrl" ∨ q = "Content-Length") :=
  ⟨claim_C8.2.2.1 staffReq rfl,
   ⟨_, _, rfl, fun q w hqw =>
     claim_C8.2.2.2.2 staffReq plainTrace htmlResp _ _ rfl q w hqw⟩⟩

/-- Claim C10: if the response's `Content-Encoding` contains `gzip`, or its
`Content-Type` before any `;` parameter is not an HTML type, the body of the
returned response is exactly the incoming body — no placeholder substitution
or panel-URL injection happens (headers may still be added). -/
theorem claim_C10 (s : Settings) (req : Request) (t : RequestTrace) (resp : Response)
    (r' : Response) (t' : RequestTrace)
    (h : process_response s req t resp = .ok (r', t'))
    (hfail : containsSub ((getHeader resp "Content-Encoding").getD "").data "gzip".data = true
      ∨ HTML_TYPES.contains (mainContentType resp) = false) :
    r'.content = resp.content := by
  rcases process_response_ok_cases h with
    ⟨hEn, rfl, _⟩ | ⟨ms, c1, hEn, hc, hg, hrtp, rfl, _⟩ | ⟨ms, hEn, hc, hg, rfl, _⟩
  · rfl
  · exfalso
    have hg' : guardOf req resp = true := by
      rw [← guardOf_r2 s req t.id resp ms]; exact hg
    unfold guardOf at hg'
    simp only [Bool.and_eq_true, Bool.not_eq_true'] at hg'
    rcases hfail with hf | hf
    · rw [hg'.1.2] at hf
      cases hf
    · rw [hg'.2] at hf
      cases hf
  · rw [r2of_content, r1of_content]

/-- Witness for claim C10: a gzip-encoded response is returned with its body
untouched even for a staff user with everything enabled. -/
theorem claim_C10_witness :
    ∃ r' t', process_response noSettings staffReq plainTrace gzipResp = .ok (r', t') ∧
      r'.content = gzipResp.content :=
  ⟨_, _, rfl,
   claim_C10 noSettings staffReq plainTrace gzipResp _ _ rfl (Or.inl (by decide))⟩

end Speedbar
